import Mathlib

/-!
Shallow embedding of the news_data_extractor pipeline:
identity generation (news_scraper._generate_article_id), content fetching
(news_scraper.scrape_article_content), classification (info_extractor),
and the two storage backends (db_handler, file_storage), together with
proofs of the behavioural claims about them.
-/

/-! ### MD5 (news_scraper uses hashlib.md5(url.encode()).hexdigest()) -/

/-- Truncation to a 32-bit word. -/
def w32 (n : Nat) : Nat := n % 4294967296

/-- Bitwise complement on 32-bit words. -/
def bnot32 (x : Nat) : Nat := 4294967295 - w32 x

/-- Left rotation of a 32-bit word by `n` places (0 < n < 32).  The two
halves occupy disjoint bit ranges, so addition realises the bitwise or. -/
def rotl32 (x n : Nat) : Nat := w32 (w32 x * 2 ^ n) + w32 x / 2 ^ (32 - n)

/-- The 64 MD5 round constants of RFC 1321. -/
def md5K : List Nat :=
  [0xd76aa478, 0xe8c7b756, 0x242070db, 0xc1bdceee,
   0xf57c0faf, 0x4787c62a, 0xa8304613, 0xfd469501,
   0x698098d8, 0x8b44f7af, 0xffff5bb1, 0x895cd7be,
   0x6b901122, 0xfd987193, 0xa679438e, 0x49b40821,
   0xf61e2562, 0xc040b340, 0x265e5a51, 0xe9b6c7aa,
   0xd62f105d, 0x02441453, 0xd8a1e681, 0xe7d3fbc8,
   0x21e1cde6, 0xc33707d6, 0xf4d50d87, 0x455a14ed,
   0xa9e3e905, 0xfcefa3f8, 0x676f02d9, 0x8d2a4c8a,
   0xfffa3942, 0x8771f681, 0x6d9d6122, 0xfde5380c,
   0xa4beea44, 0x4bdecfa9, 0xf6bb4b60, 0xbebfbc70,
   0x289b7ec6, 0xeaa127fa, 0xd4ef3085, 0x04881d05,
   0xd9d4d039, 0xe6db99e5, 0x1fa27cf8, 0xc4ac5665,
   0xf4292244, 0x432aff97, 0xab9423a7, 0xfc93a039,
   0x655b59c3, 0x8f0ccc92, 0xffeff47d, 0x85845dd1,
   0x6fa87e4f, 0xfe2ce6e0, 0xa3014314, 0x4e0811a1,
   0xf7537e82, 0xbd3af235, 0x2ad7d2bb, 0xeb86d391]

/-- The 64 MD5 per-round left-rotation amounts. -/
def md5S : List Nat :=
  [7, 12, 17, 22, 7, 12, 17, 22, 7, 12, 17, 22, 7, 12, 17, 22,
   5, 9, 14, 20, 5, 9, 14, 20, 5, 9, 14, 20, 5, 9, 14, 20,
   4, 11, 16, 23, 4, 11, 16, 23, 4, 11, 16, 23, 4, 11, 16, 23,
   6, 10, 15, 21, 6, 10, 15, 21, 6, 10, 15, 21, 6, 10, 15, 21]

/-- Round mixing function of MD5, selected by round index. -/
def md5F (i b c d : Nat) : Nat :=
  if i < 16 then Nat.lor (Nat.land b c) (Nat.land (bnot32 b) d)
  else if i < 32 then Nat.lor (Nat.land d b) (Nat.land (bnot32 d) c)
  else if i < 48 then Nat.xor b (Nat.xor c d)
  else Nat.xor c (Nat.lor b (bnot32 d))

/-- Message-word index used by MD5 round `i`. -/
def md5G (i : Nat) : Nat :=
  if i < 16 then i
  else if i < 32 then (5 * i + 1) % 16
  else if i < 48 then (3 * i + 5) % 16
  else (7 * i) % 16

/-- Little-endian 32-bit word at index `g` of a 64-byte block. -/
def leWord (block : List Nat) (g : Nat) : Nat :=
  block.getD (4 * g) 0 + 256 * block.getD (4 * g + 1) 0 +
    65536 * block.getD (4 * g + 2) 0 + 16777216 * block.getD (4 * g + 3) 0

/-- One MD5 round applied to the running (A, B, C, D) state. -/
def md5Round (block : List Nat) (st : Nat × Nat × Nat × Nat) (i : Nat) :
    Nat × Nat × Nat × Nat :=
  let a := st.1
  let b := st.2.1
  let c := st.2.2.1
  let d := st.2.2.2
  let f := w32 (md5F i b c d + a + md5K.getD i 0 + leWord block (md5G i))
  (d, w32 (b + rotl32 f (md5S.getD i 0)), b, c)

/-- Process one 64-byte block: 64 rounds then add back the incoming state. -/
def md5Block (st : Nat × Nat × Nat × Nat) (block : List Nat) :
    Nat × Nat × Nat × Nat :=
  let r := (List.range 64).foldl (md5Round block) st
  (w32 (st.1 + r.1), w32 (st.2.1 + r.2.1), w32 (st.2.2.1 + r.2.2.1),
    w32 (st.2.2.2 + r.2.2.2))

/-- The fixed MD5 initial state. -/
def md5Init : Nat × Nat × Nat × Nat :=
  (0x67452301, 0xefcdab89, 0x98badcfe, 0x10325476)

/-- MD5 padding: a 0x80 byte, zeros up to 56 mod 64, then the bit length
as a 64-bit little-endian quantity. -/
def md5Pad (msg : List Nat) : List Nat :=
  let ml := 8 * msg.length
  let k := (64 + 56 - (msg.length + 1) % 64) % 64
  msg ++ [0x80] ++ List.replicate k 0 ++
    (List.range 8).map (fun i => ml / 256 ^ i % 256)

/-- Split a byte sequence into successive 64-byte blocks; the fuel
argument (instantiated with the length) makes the recursion structural.
Each step consumes at least one byte, so length-many steps suffice. -/
def chunks64Fuel : Nat → List Nat → List (List Nat)
  | 0, _ => []
  | _, [] => []
  | fuel + 1, b :: rest =>
    (b :: rest).take 64 :: chunks64Fuel fuel ((b :: rest).drop 64)

/-- Split a byte sequence into successive 64-byte blocks. -/
def chunks64 (l : List Nat) : List (List Nat) := chunks64Fuel l.length l

/-- Little-endian byte rendering of a 32-bit word. -/
def wordLE (x : Nat) : List Nat :=
  [x % 256, x / 256 % 256, x / 65536 % 256, x / 16777216 % 256]

/-- The 16-byte MD5 digest of a byte sequence. -/
def md5Digest (msg : List Nat) : List Nat :=
  let r := (chunks64 (md5Pad msg)).foldl md5Block md5Init
  wordLE r.1 ++ wordLE r.2.1 ++ wordLE r.2.2.1 ++ wordLE r.2.2.2

/-- Lowercase hex digit for a value below 16. -/
def hexDigitChar (n : Nat) : Char :=
  "0123456789abcdef".data.getD n '0'

/-- Two lowercase hex characters for one byte. -/
def byteHex (b : Nat) : List Char :=
  [hexDigitChar (b / 16 % 16), hexDigitChar (b % 16)]

/-- Hex rendering of a byte sequence, matching Python's hexdigest(). -/
def bytesToHex (bs : List Nat) : String :=
  String.mk (bs.map byteHex).flatten

/-- UTF-8 encoding of one Unicode code point, as Python str.encode(). -/
def encodeCodePoint (n : Nat) : List Nat :=
  if n < 128 then [n]
  else if n < 2048 then [192 + n / 64, 128 + n % 64]
  else if n < 65536 then
    [224 + n / 4096, 128 + n / 64 % 64, 128 + n % 64]
  else
    [240 + n / 262144, 128 + n / 4096 % 64, 128 + n / 64 % 64, 128 + n % 64]

/-- UTF-8 byte sequence of a string (url.encode() in the source). -/
def utf8Bytes (s : String) : List Nat :=
  (s.data.map (fun c => encodeCodePoint c.toNat)).flatten

/-- Embeds NewsScraper._generate_article_id:
hashlib.md5(url.encode()).hexdigest(). -/
def generateArticleId (url : String) : String :=
  bytesToHex (md5Digest (utf8Bytes url))

set_option maxRecDepth 4096 in
example : generateArticleId "" = "d41d8cd98f00b204e9800998ecf8427e" := by decide

set_option maxRecDepth 8192 in
example : generateArticleId "abc" = "900150983cd24fb0d6963f7d28e17f72" := by decide

set_option maxRecDepth 8192 in
example : generateArticleId "http://example.com/a" = "3e27a17e84f5f8486fbc14488e12e6ff" := by
  decide

/-! ### Article data model

An article is a Python dict in the source; the fields below are the keys
the pipeline reads or writes.  `none` models an absent key (or None
value), timestamps are abstracted to naturals. -/

structure Article where
  article_id : Option String := none
  title : String := ""
  link : String := ""
  published : String := ""
  summary : String := ""
  source : String := ""
  content : Option String := none
  keywords : List String := []
  topics : List String := []
  entities : List (String × List String) := []
  top_image : Option String := none
  authors : List String := []
  scraped_at : Option Nat := none
deriving DecidableEq

/-- Python truthiness of article.get with a missing or None or empty
string value, as used by the content/title guard in classify_topic. -/
def optStrFalsy : Option String → Bool
  | none => true
  | some s => s.isEmpty

/-- Value of article.get with an empty-string default. -/
def optStr (o : Option String) : String := o.getD ""

/-- Truthiness of article.get on article_id, the save precondition in both
backends: save_article fails exactly when this is false.  (An entirely
empty article dict is also falsy in Python, but such a dict has no
article_id key either, so the same branch is taken.) -/
def hasArticleId (a : Article) : Bool :=
  match a.article_id with
  | none => false
  | some s => !s.isEmpty

/-! ### Content fetcher (news_scraper.scrape_article_content)

The network fetch plus newspaper3k parse is external code; it is
abstracted as a function from the link to either an exception or the
extracted data.  All attribute assignments in the source happen after
download/parse/nlp succeed, so a raised exception leaves the stub dict
untouched. -/

structure FetchedContent where
  text : String
  keywords : List String
  top_image : String
  authors : List String
deriving DecidableEq

/-- Embeds NewsScraper.scrape_article_content: empty link is an explicit
no-op; any exception from the fetch/parse is caught and the stub is
returned unchanged; on success content, keywords, top_image and authors
are written onto the article. -/
def scrapeArticleContent (fetch : String → Except Unit FetchedContent)
    (article : Article) : Article :=
  if article.link.isEmpty then article
  else
    match fetch article.link with
    | .error _ => article
    | .ok r =>
      { article with
        content := some r.text
        keywords := r.keywords
        top_image := some r.top_image
        authors := r.authors }

/-! ### Classifier (info_extractor)

The NLTK primitives word_tokenize, WordNetLemmatizer.lemmatize and the
English stopword list are external; they are parameters of the
embedding.  Everything else follows InfoExtractor line by line. -/

/-- The literal topic list of config.TOPICS. -/
def TOPICS : List String :=
  ["politics", "business", "technology", "health", "science", "sports",
   "entertainment"]

/-- The literal InfoExtractor.topic_keywords table. -/
def topicKeywordTable : List (String × List String) :=
  [("politics",
    ["government", "president", "election", "vote", "policy", "minister",
     "parliament", "senate", "congress", "democrat", "republican", "law",
     "legislation", "political", "campaign", "candidate", "party", "bill",
     "constitution", "diplomat", "foreign policy", "domestic policy"]),
   ("business",
    ["economy", "market", "stock", "trade", "company", "industry",
     "investment", "finance", "bank", "dollar", "euro", "profit", "revenue",
     "economic", "corporate", "CEO", "startup", "investor", "business",
     "commercial", "enterprise", "merger", "acquisition", "IPO", "shares",
     "venture capital"]),
   ("technology",
    ["tech", "software", "hardware", "internet", "app", "digital",
     "computer", "AI", "artificial intelligence", "robot", "smartphone",
     "cyber", "code", "innovation", "startup", "algorithm", "data",
     "technology", "silicon valley", "programming", "developer", "cloud",
     "machine learning", "neural network", "automation", "computing",
     "interface", "platform", "Google", "Microsoft", "Apple", "Facebook",
     "Amazon", "Tesla", "engineering"]),
   ("health",
    ["medical", "doctor", "hospital", "patient", "disease", "treatment",
     "drug", "vaccine", "healthcare", "virus", "pandemic", "medicine",
     "health", "symptom", "clinical", "therapy", "diagnosis", "surgery",
     "physician", "nurse", "cancer", "diabetes", "heart disease",
     "mental health", "psychiatry", "wellness"]),
   ("science",
    ["research", "scientist", "study", "discovery", "experiment", "space",
     "physics", "biology", "chemistry", "astronomy", "climate",
     "environment", "laboratory", "theory", "scientific", "academic",
     "journal", "hypothesis", "evidence", "data", "analysis", "quantum",
     "molecular", "ecosystem", "evolution", "genetics", "particle", "NASA",
     "SpaceX"]),
   ("sports",
    ["team", "player", "game", "match", "tournament", "championship",
     "score", "win", "lose", "football", "soccer", "basketball", "baseball",
     "tennis", "olympic", "athlete", "coach", "league", "sports",
     "competition", "fitness", "stadium", "race", "medal", "victory",
     "defeat", "NHL", "NBA", "NFL", "MLB"]),
   ("entertainment",
    ["movie", "film", "actor", "actress", "director", "music", "song",
     "celebrity", "star", "TV", "show", "award", "performance", "concert",
     "festival", "album", "Hollywood", "entertainment", "streaming",
     "Netflix", "Disney", "HBO", "theater", "premiere", "box office",
     "Grammy", "Oscar", "Emmy", "artist", "band", "singer", "producer"])]

/-- Keyword list of one topic.  topic_keywords has exactly the keys of
TOPICS in the same order, so per-topic lookup is faithful to iterating
the dict. -/
def keywordsFor (topic : String) : List String :=
  ((topicKeywordTable.find? (fun p => p.1 == topic)).map (fun p => p.2)).getD []

/-- Python str.lower(), character by character; implemented on the
character list so that it reduces structurally. -/
def strToLower (s : String) : String := String.mk (s.data.map Char.toLower)

/-- Python all-alphabetic test token.isalpha(): nonempty and every
character alphabetic. -/
def strIsAlpha (s : String) : Bool :=
  !s.isEmpty && s.data.all Char.isAlpha

/-- Embeds InfoExtractor.preprocess_text, parameterized by the NLTK
word tokenizer, lemmatizer and stopword list: lowercase, tokenize, keep
alphabetic non-stopword tokens, lemmatize each. -/
def preprocessText (tokenize : String → List String)
    (lemmatize : String → String) (stopWords : List String)
    (text : String) : List String :=
  if text.isEmpty then []
  else
    ((tokenize (strToLower text)).filter
        (fun token => strIsAlpha token && !stopWords.contains token)).map
      lemmatize

/-- Prefix test on character lists (needle begins here). -/
def leadsWith : List Char → List Char → Bool
  | [], _ => true
  | _ :: _, [] => false
  | a :: as, b :: bs => a == b && leadsWith as bs

/-- Substring occurrence on character lists. -/
def hasSubList (needle : List Char) : List Char → Bool
  | [] => needle.isEmpty
  | b :: bs => leadsWith needle (b :: bs) || hasSubList needle bs

/-- Python's substring containment test `needle in haystack`. -/
def hasSub (needle haystack : String) : Bool :=
  hasSubList needle.data haystack.data

/-- Per-topic score accumulation of classify_topic: the four sequential
scoring passes over title tokens (+3), combined-text tokens (+1),
multi-word phrases in the raw text (+2) and the article's own keywords
field (+4). -/
def topicScoreOf (titleTokens tokens : List String) (text : String)
    (articleKeywords : List String) (kws : List String) : Nat :=
  let s1 := titleTokens.foldl
    (fun s token => if kws.contains token then s + 3 else s) 0
  let s2 := tokens.foldl
    (fun s token => if kws.contains token then s + 1 else s) s1
  let s3 := kws.foldl
    (fun s kw =>
      if kw.data.contains ' ' && hasSub (strToLower kw) (strToLower text)
      then s + 2 else s)
    s2
  articleKeywords.foldl
    (fun s k =>
      if kws.any (fun kw => strToLower kw == strToLower k) then s + 4 else s)
    s3

/-- Stable insertion of one element into a descending-by-key list: the
new element goes in front of the first element whose key it matches or
exceeds, which reproduces Python's stable sorted(..., reverse=True). -/
def insertDescBy (key : α → Nat) (x : α) : List α → List α
  | [] => [x]
  | y :: ys => if key y ≤ key x then x :: y :: ys else y :: insertDescBy key x ys

/-- Stable descending sort by a natural-number key. -/
def sortDescBy (key : α → Nat) : List α → List α
  | [] => []
  | x :: xs => insertDescBy key x (sortDescBy key xs)

/-- Python f-string rendering of article.get('content', '').  The
pipeline's stubs always carry the content key, with value None until a
fetch succeeds, and an f-string renders None as the string "None"; `none`
in this model stands for that present-but-None state. -/
def fstrOpt : Option String → String
  | none => "None"
  | some s => s

/-- Score-and-select tail of classify_topic, applied to already
preprocessed token lists: score every configured topic, sort the
(topic, score) pairs descending by score with Python's stable sort,
keep scores strictly above min_score = 1, return the first two topic
names, or the literal list [general] when none qualify. -/
def classifySelect (titleTokens tokens : List String) (text : String)
    (articleKeywords : List String) : List String :=
  let topicScores := TOPICS.map (fun topic =>
    (topic, topicScoreOf titleTokens tokens text articleKeywords
      (keywordsFor topic)))
  let sortedTopics := sortDescBy (fun p => p.2) topicScores
  let relevantTopics :=
    (sortedTopics.filter (fun p => 1 < p.2)).map (fun p => p.1)
  if relevantTopics.isEmpty then ["general"] else relevantTopics.take 2

/-- Embeds InfoExtractor.classify_topic with total NLTK primitives:
guard on falsy content and title, build the combined raw text, preprocess
the combined text and the title, then score and select. -/
def classifyTopic (tokenize : String → List String)
    (lemmatize : String → String) (stopWords : List String)
    (a : Article) : List String :=
  if optStrFalsy a.content && a.title.isEmpty then []
  else
    let text := a.title ++ " " ++ fstrOpt a.content
    let tokens := preprocessText tokenize lemmatize stopWords text
    let titleTokens := preprocessText tokenize lemmatize stopWords a.title
    classifySelect titleTokens tokens text a.keywords

/-- Variant of preprocess_text whose tokenizer may raise: word_tokenize
can throw (e.g. a missing-resource LookupError), and preprocess_text has
no handler, so the exception passes through. -/
def preprocessTextE (tokenizeE : String → Except Unit (List String))
    (lemmatize : String → String) (stopWords : List String)
    (text : String) : Except Unit (List String) :=
  if text.isEmpty then .ok []
  else do
    let tokens ← tokenizeE (strToLower text)
    .ok ((tokens.filter
        (fun token => strIsAlpha token && !stopWords.contains token)).map
      lemmatize)

/-- Embeds classify_topic with a fallible tokenizer.  The body of
classify_topic contains no try/except, so a tokenization exception
escapes; tokens for the combined text are computed before the title
tokens, as in the source. -/
def classifyTopicE (tokenizeE : String → Except Unit (List String))
    (lemmatize : String → String) (stopWords : List String)
    (a : Article) : Except Unit (List String) :=
  if optStrFalsy a.content && a.title.isEmpty then .ok []
  else
    let text := a.title ++ " " ++ fstrOpt a.content
    do
      let tokens ← preprocessTextE tokenizeE lemmatize stopWords text
      let titleTokens ← preprocessTextE tokenizeE lemmatize stopWords a.title
      .ok (classifySelect titleTokens tokens text a.keywords)

/-- The entity category map initialised at the top of
extract_named_entities, in source order. -/
def emptyEntities : List (String × List String) :=
  [("PERSON", []), ("ORGANIZATION", []), ("LOCATION", []), ("DATE", []),
   ("MONEY", []), ("GPE", [])]

/-- Record one labelled chunk: append the surface string to its category
bucket unless already present; unrecognised labels change nothing. -/
def addEntity (entities : List (String × List String))
    (chunk : String × String) : List (String × List String) :=
  entities.map (fun p =>
    if p.1 == chunk.1 then
      (p.1, if p.2.contains chunk.2 then p.2 else p.2 ++ [chunk.2])
    else p)

/-- Sentence loop of extract_named_entities.  The chunker bundles NLTK's
word_tokenize, pos_tag and ne_chunk for one sentence, yielding the
labelled chunks or an exception; the surrounding try/except stops the
loop at the first exception, keeping everything collected so far. -/
def collectEntities (chunker : String → Except Unit (List (String × String))) :
    List String → List (String × List String) → List (String × List String)
  | [], acc => acc
  | s :: rest, acc =>
    match chunker s with
    | .error _ => acc
    | .ok chunks => collectEntities chunker rest (chunks.foldl addEntity acc)

/-- Embeds InfoExtractor.extract_named_entities: falsy text yields the
empty category map; a sent_tokenize exception is caught with nothing yet
collected; otherwise the sentences are processed until the first chunker
exception.  The function never propagates an exception. -/
def extractNamedEntities (sentTokenize : String → Except Unit (List String))
    (chunker : String → Except Unit (List (String × String)))
    (text : Option String) : List (String × List String) :=
  match text with
  | none => emptyEntities
  | some s =>
    if s.isEmpty then emptyEntities
    else
      match sentTokenize s with
      | .error _ => emptyEntities
      | .ok sentences => collectEntities chunker sentences emptyEntities

/-- Embeds InfoExtractor.process_article: extract entities from the
content (never raises), classify topics (may raise, uncaught), and
return a copy of the article with topics and entities filled in. -/
def processArticle (sentTokenize : String → Except Unit (List String))
    (chunker : String → Except Unit (List (String × String)))
    (tokenizeE : String → Except Unit (List String))
    (lemmatize : String → String) (stopWords : List String)
    (a : Article) : Except Unit Article :=
  let entities := extractNamedEntities sentTokenize chunker a.content
  do
    let topics ← classifyTopicE tokenizeE lemmatize stopWords a
    .ok { a with topics := topics, entities := entities }

/-! ### Storage backends

The document store (db_handler) is modelled as the list of stored
documents in insertion order; the unique index on article_id justifies
the well-formedness hypotheses below.  The file store (file_storage) is
modelled as the list of stored articles in ascending modification-time
order: writing the file named article_id.json replaces the record with
that id and makes it the most recently modified, and serialisation
round-trips datetimes through ISO strings, modelled as the identity. -/

/-- Embeds DatabaseHandler.save_article: missing article_id fails before
any write; otherwise update_one with upsert keyed on article_id replaces
the matching document's fields or inserts a new document, and all three
result branches return True.  The middle component is the caller's
article object after the call — the method never assigns into it. -/
def dbSaveArticle (a : Article) (db : List Article) :
    Bool × Article × List Article :=
  if !hasArticleId a then (false, a, db)
  else if db.any (fun b => b.article_id == a.article_id) then
    (true, a, db.map (fun b => if b.article_id == a.article_id then a else b))
  else (true, a, db ++ [a])

/-- The in-place timestamping step of FileStorage.save_article: assign
datetime.now() to scraped_at when the key is absent. -/
def stampScraped (now : Nat) (a : Article) : Article :=
  match a.scraped_at with
  | none => { a with scraped_at := some now }
  | some _ => a

/-- Embeds FileStorage.save_article: missing article_id fails before any
write; otherwise the scraped_at key is assigned on the caller's article
object itself when absent, and the serialised article is written to
article_id.json, replacing any previous record with that id and becoming
the newest file.  The middle component is the caller's article object
after the call. -/
def fileSaveArticle (now : Nat) (a : Article) (fs : List Article) :
    Bool × Article × List Article :=
  if !hasArticleId a then (false, a, fs)
  else
    let a2 := stampScraped now a
    (true, a2, fs.filter (fun b => !(b.article_id == a2.article_id)) ++ [a2])

/-- Sort key used by the document store's default sort: the scraped_at
field (always present on stored pipeline articles). -/
def scrapedKey (a : Article) : Nat := a.scraped_at.getD 0

/-- Embeds DatabaseHandler.get_articles with the default sort:
find(filters), sort descending by scraped_at, skip, limit. -/
def dbGetArticles (filters : Article → Bool) (limit skip : Nat)
    (db : List Article) : List Article :=
  ((sortDescBy scrapedKey (db.filter filters)).drop skip).take limit

/-- Embeds DatabaseHandler.get_recent_articles (default filters). -/
def dbGetRecentArticles (limit skip : Nat) (db : List Article) :
    List Article :=
  dbGetArticles (fun _ => true) limit skip db

/-- Embeds DatabaseHandler.get_article_by_id: find_one on article_id. -/
def dbGetArticleById (id : String) (db : List Article) : Option Article :=
  db.find? (fun b => b.article_id == some id)

/-- Embeds DatabaseHandler.get_article_count with no filters. -/
def dbGetArticleCount (db : List Article) : Nat := db.length

/-- Embeds FileStorage.get_article_by_id: read article_id.json if it
exists (ids are unique on disk, so find? is exact). -/
def fileGetArticleById (id : String) (fs : List Article) : Option Article :=
  fs.find? (fun b => b.article_id == some id)

/-- Embeds FileStorage.get_recent_articles: list the article files,
sort by modification time newest first (the reverse of the
save-order list), then slice skip and limit. -/
def fileGetRecentArticles (limit skip : Nat) (fs : List Article) :
    List Article :=
  (fs.reverse.drop skip).take limit

/-- Embeds FileStorage.count_articles: one json file per article. -/
def fileCountArticles (fs : List Article) : Nat := fs.length

/-- A sequence of DatabaseHandler.save_article calls. -/
def runDbSaves (saves : List Article) (db : List Article) : List Article :=
  saves.foldl (fun s a => (dbSaveArticle a s).2.2) db

/-- A sequence of FileStorage.save_article calls (the wall-clock time is
irrelevant for articles that already carry scraped_at). -/
def runFileSaves (saves : List Article) (fs : List Article) : List Article :=
  saves.foldl (fun s a => (fileSaveArticle 0 a s).2.2) fs

/-- Number of stored records carrying a given article_id value. -/
def countWithId (k : Option String) (l : List Article) : Nat :=
  l.countP (fun b => b.article_id == k)

/-! ### Concrete fixtures for witnesses and counterexamples -/

/-- Accumulator loop of the whitespace tokenizer. -/
def wordsAux : List Char → List Char → List String
  | [], cur => if cur.isEmpty then [] else [String.mk cur.reverse]
  | c :: rest, cur =>
    if c == ' ' then
      if cur.isEmpty then wordsAux rest []
      else String.mk cur.reverse :: wordsAux rest []
    else wordsAux rest (c :: cur)

/-- Whitespace word tokenizer: a stand-in for NLTK's word_tokenize that
agrees with it on the single-word fixture inputs used below. -/
def simpleTokenize (s : String) : List String := wordsAux s.data []

/-- The same tokenizer viewed as a non-raising fallible tokenizer. -/
def simpleTokenizeE (s : String) : Except Unit (List String) :=
  .ok (simpleTokenize s)

/-- A tokenizer whose underlying NLTK call raises, e.g. a LookupError
for a missing punkt resource. -/
def failTokenizeE (_ : String) : Except Unit (List String) :=
  .error ()

/-- Identity lemmatizer: WordNetLemmatizer.lemmatize leaves the fixture
words below unchanged. -/
def identityLemmatize (s : String) : String := s

/-- Empty stopword list: none of the fixture words is an NLTK English
stopword, so filtering against the empty list agrees with NLTK there. -/
def noStopWords : List String := []

/-- A sentence splitter that always succeeds with one sentence. -/
def simpleSentTokenize (s : String) : Except Unit (List String) :=
  .ok [s]

/-- A chunker whose NLTK tagger raises on every sentence. -/
def failChunker (_ : String) : Except Unit (List (String × String)) :=
  .error ()

/-- Fixture: stored earlier but scraped later. -/
def artA : Article :=
  { article_id := some "a", title := "Alpha", source := "s1",
    scraped_at := some 10 }

/-- Fixture: stored later but scraped earlier. -/
def artB : Article :=
  { article_id := some "b", title := "Beta", source := "s2",
    scraped_at := some 5 }

/-- Fixture: one politics keyword in the title, none in the body. -/
def govArticle : Article :=
  { article_id := some "g", title := "government", content := some "said" }

/-- Fixture: falsy title and falsy content. -/
def voidArticle : Article := { title := "", content := none }

/-- Fixture: a stub with a link, before any fetch. -/
def stubArticle : Article :=
  { article_id := some "s", title := "Stub", link := "http://x" }

/-- A fetcher whose download or parse raises on every link. -/
def failFetch (_ : String) : Except Unit FetchedContent := .error ()

/-- Fixture: no article_id key. -/
def noIdArticle : Article := { title := "NoId" }

/-- Claim C2's reading of the scoring weights, stated from the claim's
words for comparison with the source's topicScoreOf: +3 per occurrence
in the title, +1 per occurrence in the body (the body alone), +2 per
multi-word phrase found in the raw title+body text, +4 per matching
entry of the keywords field. -/
def claimTopicScore (tokenize : String → List String)
    (lemmatize : String → String) (stopWords : List String)
    (a : Article) (kws : List String) : Nat :=
  let text := a.title ++ " " ++ fstrOpt a.content
  let titleTokens := preprocessText tokenize lemmatize stopWords a.title
  let bodyTokens :=
    preprocessText tokenize lemmatize stopWords (fstrOpt a.content)
  3 * titleTokens.countP (fun t => kws.contains t) +
    bodyTokens.countP (fun t => kws.contains t) +
    2 * kws.countP
      (fun kw => kw.data.contains ' '
        && hasSub (strToLower kw) (strToLower text)) +
    4 * a.keywords.countP
      (fun k => kws.any (fun kw => strToLower kw == strToLower k))

/-- The score classify_topic computes for one topic of one article: the
four scoring passes applied to the preprocessed title tokens, the
preprocessed combined title-and-body tokens, the raw combined text and
the article's keywords field. -/
def articleTopicScore (tokenize : String → List String)
    (lemmatize : String → String) (stopWords : List String)
    (a : Article) (topic : String) : Nat :=
  topicScoreOf
    (preprocessText tokenize lemmatize stopWords a.title)
    (preprocessText tokenize lemmatize stopWords
      (a.title ++ " " ++ fstrOpt a.content))
    (a.title ++ " " ++ fstrOpt a.content)
    a.keywords (keywordsFor topic)

/-- Output priority of the classifier: strictly higher score first, a
tie resolved by the earlier position in the configured TOPICS list (the
insertion order of the topic_scores dict, preserved by Python's stable
sort). -/
def topicOutranks (score : String → Nat) (t u : String) : Prop :=
  score u < score t
    ∨ (score t = score u ∧ TOPICS.indexOf t < TOPICS.indexOf u)

/-- Strict priority order on keyed elements: larger key first, ties
resolved by smaller position. -/
def keyPosBeats (key pos : α → Nat) (x y : α) : Prop :=
  key y < key x ∨ (key x = key y ∧ pos x < pos y)

/-! ### Helper lemmas -/

theorem hexDigitChar_mem (n : Nat) (h : n < 16) :
    hexDigitChar n ∈ "0123456789abcdef".data := by
  interval_cases n <;> decide

theorem byteHex_subset (b : Nat) (c : Char) (hc : c ∈ byteHex b) :
    c ∈ "0123456789abcdef".data := by
  unfold byteHex at hc
  simp only [List.mem_cons, List.not_mem_nil, or_false] at hc
  rcases hc with rfl | rfl
  · exact hexDigitChar_mem _ (Nat.mod_lt _ (by norm_num))
  · exact hexDigitChar_mem _ (Nat.mod_lt _ (by norm_num))

theorem flatten_byteHex_length (bs : List Nat) :
    ((bs.map byteHex).flatten).length = 2 * bs.length := by
  induction bs with
  | nil => rfl
  | cons b rest ih =>
    simp only [List.map_cons, List.flatten_cons, List.length_append, ih,
      List.length_cons, byteHex, List.length_nil]
    omega

theorem md5Digest_length (msg : List Nat) : (md5Digest msg).length = 16 := by
  unfold md5Digest wordLE
  simp

theorem bytesToHex_length (bs : List Nat) :
    (bytesToHex bs).length = 2 * bs.length := by
  unfold bytesToHex
  show ((bs.map byteHex).flatten).length = 2 * bs.length
  exact flatten_byteHex_length bs

theorem bytesToHex_hex (bs : List Nat) (c : Char) (hc : c ∈ (bytesToHex bs).data) :
    c ∈ "0123456789abcdef".data := by
  unfold bytesToHex at hc
  rcases List.mem_flatten.mp hc with ⟨l, hl, hcl⟩
  rcases List.mem_map.mp hl with ⟨b, _, rfl⟩
  exact byteHex_subset b c hcl

/-! ### Claim C9: identity determinism -/

/-- C9: _generate_article_id is a pure function (equal locators give
equal ids), its output is always the 32-character lowercase-hex rendering
of a 128-bit MD5 digest, and the empty locator is accepted and yields
exactly the hash of the empty byte string. -/
theorem generate_article_id_spec :
    (∀ u v : String, u = v → generateArticleId u = generateArticleId v)
    ∧ (∀ u : String, (generateArticleId u).length = 32
        ∧ ∀ c ∈ (generateArticleId u).data, c ∈ "0123456789abcdef".data)
    ∧ generateArticleId "" = bytesToHex (md5Digest [])
    ∧ generateArticleId "" = "d41d8cd98f00b204e9800998ecf8427e" := by
  refine ⟨fun u v h => by rw [h], fun u => ⟨?_, ?_⟩, rfl, ?_⟩
  · show (bytesToHex (md5Digest (utf8Bytes u))).length = 32
    rw [bytesToHex_length, md5Digest_length]
  · intro c hc
    exact bytesToHex_hex _ c hc
  · set_option maxRecDepth 4096 in decide

/-- Witness for C9: the inner implications discharged at a concrete
locator. -/
theorem generate_article_id_spec_witness :
    generateArticleId "http://example.com/a" = generateArticleId "http://example.com/a"
    ∧ (generateArticleId "http://example.com/a").length = 32 :=
  ⟨generate_article_id_spec.1 _ _ rfl,
    (generate_article_id_spec.2.1 "http://example.com/a").1⟩

/-! ### Claim C5: save failure condition and atomicity -/

/-- C5: on both backends save_article returns false exactly when the
article_id is missing (falsy), and a failed save leaves the stored
records unchanged (and, for the file store, the caller's article
unmutated). -/
theorem save_failure_condition (a : Article) (db fs : List Article) (now : Nat) :
    ((dbSaveArticle a db).1 = false ↔ hasArticleId a = false)
    ∧ (hasArticleId a = false → (dbSaveArticle a db).2.2 = db)
    ∧ ((fileSaveArticle now a fs).1 = false ↔ hasArticleId a = false)
    ∧ (hasArticleId a = false →
        (fileSaveArticle now a fs).2.2 = fs
        ∧ (fileSaveArticle now a fs).2.1 = a) := by
  unfold dbSaveArticle fileSaveArticle
  cases h : hasArticleId a <;> simp [h, apply_ite]

/-- Witness for C5 at a concrete article with no article_id and empty
stores. -/
theorem save_failure_condition_witness :
    ((dbSaveArticle noIdArticle []).1 = false
      ↔ hasArticleId noIdArticle = false)
    ∧ (hasArticleId noIdArticle = false → (dbSaveArticle noIdArticle []).2.2 = [])
    ∧ ((fileSaveArticle 7 noIdArticle []).1 = false
      ↔ hasArticleId noIdArticle = false)
    ∧ (hasArticleId noIdArticle = false →
        (fileSaveArticle 7 noIdArticle []).2.2 = []
        ∧ (fileSaveArticle 7 noIdArticle []).2.1 = noIdArticle) :=
  save_failure_condition noIdArticle [] [] 7

/-! ### Claim C8: content fetcher failure behaviour -/

/-- C8: scrape_article_content returns the stub unchanged when the link
is empty, returns the stub unchanged with content still None when the
fetch or parse raises, and (being a total function of the fetch outcome)
never propagates an exception to its caller. -/
theorem scrape_content_failure (fetch : String → Except Unit FetchedContent)
    (a : Article) (hstub : a.content = none) :
    (a.link = "" → scrapeArticleContent fetch a = a)
    ∧ (∀ e, fetch a.link = .error e →
        scrapeArticleContent fetch a = a
        ∧ (scrapeArticleContent fetch a).content = none) := by
  unfold scrapeArticleContent
  constructor
  · intro h
    have he : a.link.isEmpty = true := by rw [h]; decide
    simp [he]
  · intro e he
    by_cases hl : a.link.isEmpty = true <;> simp [hl, he, hstub]

/-- Witness for C8: a stub whose fetch raises is returned unchanged. -/
theorem scrape_content_failure_witness :
    stubArticle.content = none
    ∧ ((stubArticle.link = "" →
          scrapeArticleContent failFetch stubArticle = stubArticle)
        ∧ (∀ e, failFetch stubArticle.link = .error e →
            scrapeArticleContent failFetch stubArticle = stubArticle
            ∧ (scrapeArticleContent failFetch stubArticle).content = none)) :=
  ⟨rfl, scrape_content_failure failFetch stubArticle rfl⟩

/-! ### Claim C10: file-store save mutates its input -/

/-- C10: when the article has an article_id and no scraped_at key,
FileStorage.save_article assigns the current time to scraped_at on the
caller's article object itself and persists that mutated object; when
scraped_at is already present the input object is returned unchanged;
and DatabaseHandler.save_article never mutates its input. -/
theorem file_save_mutates_input (a : Article) (fs db : List Article)
    (now : Nat) (h : hasArticleId a = true) :
    (a.scraped_at = none →
      (fileSaveArticle now a fs).2.1 = { a with scraped_at := some now }
      ∧ { a with scraped_at := some now } ∈ (fileSaveArticle now a fs).2.2)
    ∧ (a.scraped_at ≠ none → (fileSaveArticle now a fs).2.1 = a)
    ∧ (dbSaveArticle a db).2.1 = a := by
  unfold fileSaveArticle dbSaveArticle
  refine ⟨?_, ?_, ?_⟩
  · intro hs
    simp [h, hs, stampScraped]
  · intro hs
    match hv : a.scraped_at with
    | none => exact absurd hv hs
    | some t => simp [h, hv, stampScraped]
  · simp [h, apply_ite]

/-- Witness for C10: a fresh article without scraped_at is mutated, the
already-stamped artA is not, and the document store never mutates. -/
theorem file_save_mutates_input_witness :
    hasArticleId govArticle = true
    ∧ (fileSaveArticle 42 govArticle []).2.1
        = { govArticle with scraped_at := some 42 }
    ∧ hasArticleId artA = true
    ∧ (fileSaveArticle 42 artA []).2.1 = artA
    ∧ (dbSaveArticle govArticle []).2.1 = govArticle :=
  ⟨rfl,
    ((file_save_mutates_input govArticle [] [] 42 rfl).1 rfl).1,
    rfl,
    (file_save_mutates_input artA [] [] 42 rfl).2.1 (by decide),
    (file_save_mutates_input govArticle [] [] 42 rfl).2.2⟩

/-! ### Claim C1: upsert idempotence -/

theorem countP_filter_not (p : α → Bool) (l : List α) :
    (l.filter (fun b => !p b)).countP p = 0 := by
  induction l with
  | nil => rfl
  | cons b rest ih =>
    by_cases hb : p b <;> simp [List.filter_cons, hb, List.countP_cons, ih]

theorem filter_not_idem (p : α → Bool) (l : List α) :
    (l.filter (fun b => !p b)).filter (fun b => !p b)
      = l.filter (fun b => !p b) := by
  induction l with
  | nil => rfl
  | cons b rest ih =>
    by_cases hb : p b <;> simp [List.filter_cons, hb, ih]

theorem countWithId_map_replace (a : Article) (k : Option String)
    (db : List Article) :
    countWithId k
        (db.map (fun b => if b.article_id == a.article_id then a else b))
      = countWithId k db := by
  unfold countWithId
  induction db with
  | nil => rfl
  | cons b rest ih =>
    simp only [List.map_cons, List.countP_cons, ih]
    by_cases hb : b.article_id = a.article_id <;> simp [hb]

theorem replace_of_absent (a : Article) (db : List Article)
    (h : countWithId a.article_id db = 0) :
    db.map (fun b => if b.article_id == a.article_id then a else b) = db := by
  unfold countWithId at h
  induction db with
  | nil => rfl
  | cons b rest ih =>
    simp only [List.countP_cons] at h
    by_cases hb : b.article_id = a.article_id
    · simp [hb] at h
    · simp only [List.map_cons]
      rw [if_neg (by simpa using hb), ih (by omega)]

theorem dbSave_returns_true (a : Article) (h : hasArticleId a = true)
    (db : List Article) : (dbSaveArticle a db).1 = true := by
  unfold dbSaveArticle
  simp [h, apply_ite]

theorem dbSave_state_present (a : Article) (h : hasArticleId a = true)
    (db : List Article)
    (hany : db.any (fun b => b.article_id == a.article_id) = true) :
    (dbSaveArticle a db).2.2
      = db.map (fun b => if b.article_id == a.article_id then a else b) := by
  unfold dbSaveArticle
  simp [h, hany]

theorem dbSave_state_absent (a : Article) (h : hasArticleId a = true)
    (db : List Article)
    (hany : db.any (fun b => b.article_id == a.article_id) = false) :
    (dbSaveArticle a db).2.2 = db ++ [a] := by
  unfold dbSaveArticle
  simp [h, hany]

theorem dbSave_countWithId (a : Article) (h : hasArticleId a = true)
    (db : List Article) (hwf : countWithId a.article_id db ≤ 1) :
    countWithId a.article_id (dbSaveArticle a db).2.2 = 1 := by
  unfold dbSaveArticle
  simp only [h, Bool.not_true, Bool.false_eq_true, if_false]
  by_cases hany : db.any (fun b => b.article_id == a.article_id) = true
  · simp only [hany, if_true]
    rw [countWithId_map_replace]
    rcases List.any_eq_true.mp hany with ⟨b, hb, hp⟩
    have hpos : 0 < countWithId a.article_id db := by
      unfold countWithId
      exact List.countP_pos_iff.mpr ⟨b, hb, hp⟩
    omega
  · simp only [hany, if_false]
    have hzero : countWithId a.article_id db = 0 := by
      unfold countWithId
      rw [List.countP_eq_zero]
      intro b hb
      intro hp
      exact hany (List.any_eq_true.mpr ⟨b, hb, hp⟩)
    unfold countWithId at hzero ⊢
    simp [List.countP_append, hzero, List.countP_cons]

theorem dbSave_state_idem (a : Article) (h : hasArticleId a = true)
    (db : List Article) :
    (dbSaveArticle a (dbSaveArticle a db).2.2).2.2 = (dbSaveArticle a db).2.2 := by
  cases hany : db.any (fun b => b.article_id == a.article_id) with
  | true =>
    have h1 := dbSave_state_present a h db hany
    have hany2 : (db.map (fun b => if b.article_id == a.article_id then a
        else b)).any (fun b => b.article_id == a.article_id) = true := by
      rcases List.any_eq_true.mp hany with ⟨b, hb, hp⟩
      exact List.any_eq_true.mpr
        ⟨a, List.mem_map.mpr ⟨b, hb, by simp [hp]⟩, by simp⟩
    rw [h1, dbSave_state_present a h _ hany2, List.map_map]
    apply List.map_congr_left
    intro b _
    by_cases hb : b.article_id = a.article_id <;>
      simp [Function.comp_apply, hb]
  | false =>
    have h1 := dbSave_state_absent a h db hany
    have hany2 : (db ++ [a]).any (fun b => b.article_id == a.article_id)
        = true :=
      List.any_eq_true.mpr ⟨a, List.mem_append_right _ (by simp), by simp⟩
    have hzero : countWithId a.article_id db = 0 := by
      unfold countWithId
      rw [List.countP_eq_zero]
      intro b hb hp
      have hx : db.any (fun b => b.article_id == a.article_id) = true :=
        List.any_eq_true.mpr ⟨b, hb, hp⟩
      rw [hany] at hx
      cases hx
    rw [h1, dbSave_state_present a h _ hany2, List.map_append,
      replace_of_absent a db hzero]
    simp

theorem stampScraped_article_id (now : Nat) (a : Article) :
    (stampScraped now a).article_id = a.article_id := by
  unfold stampScraped
  cases a.scraped_at <;> rfl

theorem stampScraped_idem (n1 n2 : Nat) (a : Article) :
    stampScraped n2 (stampScraped n1 a) = stampScraped n1 a := by
  cases hs : a.scraped_at with
  | none => simp [stampScraped, hs]
  | some t => simp [stampScraped, hs]

theorem hasArticleId_stamp (now : Nat) (a : Article) :
    hasArticleId (stampScraped now a) = hasArticleId a := by
  unfold hasArticleId
  rw [stampScraped_article_id]

theorem fileSave_ok (a : Article) (h : hasArticleId a = true) (now : Nat)
    (fs : List Article) :
    fileSaveArticle now a fs
      = (true, stampScraped now a,
          fs.filter (fun b => !(b.article_id == a.article_id))
            ++ [stampScraped now a]) := by
  unfold fileSaveArticle
  simp [h, stampScraped_article_id]

theorem fileSave_twice (a : Article) (h : hasArticleId a = true)
    (fs : List Article) (n1 n2 : Nat) :
    (fileSaveArticle n2 (fileSaveArticle n1 a fs).2.1
        (fileSaveArticle n1 a fs).2.2).1 = true
    ∧ (fileSaveArticle n2 (fileSaveArticle n1 a fs).2.1
        (fileSaveArticle n1 a fs).2.2).2.2 = (fileSaveArticle n1 a fs).2.2
    ∧ countWithId a.article_id (fileSaveArticle n1 a fs).2.2 = 1 := by
  have h2 : hasArticleId (stampScraped n1 a) = true := by
    rw [hasArticleId_stamp]
    exact h
  rw [fileSave_ok a h n1 fs]
  rw [show ((true, stampScraped n1 a,
      fs.filter (fun b => !(b.article_id == a.article_id))
        ++ [stampScraped n1 a]) : Bool × Article × List Article).2.1
    = stampScraped n1 a from rfl]
  rw [show ((true, stampScraped n1 a,
      fs.filter (fun b => !(b.article_id == a.article_id))
        ++ [stampScraped n1 a]) : Bool × Article × List Article).2.2
    = fs.filter (fun b => !(b.article_id == a.article_id))
        ++ [stampScraped n1 a] from rfl]
  rw [fileSave_ok (stampScraped n1 a) h2 n2 _]
  refine ⟨rfl, ?_, ?_⟩
  · show List.filter _ _ ++ _ = _
    rw [stampScraped_idem]
    simp only [stampScraped_article_id]
    rw [List.filter_append]
    simp only [List.filter_cons, List.filter_nil]
    rw [filter_not_idem]
    simp [stampScraped_article_id]
  · unfold countWithId
    rw [List.countP_append, countP_filter_not]
    simp [List.countP_cons, stampScraped_article_id]

/-- C1: saving the same article twice on either backend leaves exactly
one stored record keyed by its article_id, the second save still reports
success, and the stored-article count is unchanged by the second save.
For the file store the second call receives the article object as the
first call left it (Python passes the same dict, which the first call
may have stamped with scraped_at); the document store's well-formedness
hypothesis reflects its unique index on article_id. -/
theorem upsert_idempotent (a : Article) (h : hasArticleId a = true)
    (db fs : List Article) (hwf : countWithId a.article_id db ≤ 1)
    (n1 n2 : Nat) :
    ((dbSaveArticle a (dbSaveArticle a db).2.2).1 = true
      ∧ dbGetArticleCount (dbSaveArticle a (dbSaveArticle a db).2.2).2.2
        = dbGetArticleCount (dbSaveArticle a db).2.2
      ∧ countWithId a.article_id (dbSaveArticle a (dbSaveArticle a db).2.2).2.2
        = 1)
    ∧ ((fileSaveArticle n2 (fileSaveArticle n1 a fs).2.1
          (fileSaveArticle n1 a fs).2.2).1 = true
      ∧ fileCountArticles (fileSaveArticle n2 (fileSaveArticle n1 a fs).2.1
          (fileSaveArticle n1 a fs).2.2).2.2
        = fileCountArticles (fileSaveArticle n1 a fs).2.2
      ∧ countWithId a.article_id
          (fileSaveArticle n2 (fileSaveArticle n1 a fs).2.1
            (fileSaveArticle n1 a fs).2.2).2.2 = 1) := by
  have hfile := fileSave_twice a h fs n1 n2
  have hdb1 := dbSave_state_idem a h db
  refine ⟨⟨dbSave_returns_true a h _, ?_, ?_⟩, hfile.1, ?_, ?_⟩
  · rw [hdb1]
  · rw [hdb1]
    exact dbSave_countWithId a h db hwf
  · rw [hfile.2.1]
  · rw [hfile.2.1]
    exact hfile.2.2

/-- Witness for C1: a concrete article saved twice into empty stores. -/
theorem upsert_idempotent_witness :
    hasArticleId artA = true
    ∧ countWithId artA.article_id [] ≤ 1
    ∧ countWithId artA.article_id
        (dbSaveArticle artA (dbSaveArticle artA []).2.2).2.2 = 1
    ∧ countWithId artA.article_id
        (fileSaveArticle 2 (fileSaveArticle 1 artA []).2.1
          (fileSaveArticle 1 artA []).2.2).2.2 = 1 :=
  ⟨rfl, by decide,
    (upsert_idempotent artA rfl [] [] (by decide) 1 2).1.2.2,
    (upsert_idempotent artA rfl [] [] (by decide) 1 2).2.2.2⟩

/-! ### Claim C4: classification fault containment -/

/-- Counterexample to C4 as stated: with a tokenizer whose underlying
NLTK call raises (classify_topic has no try/except around
preprocess_text), process_article propagates the exception instead of
returning with topics defaulted to the general label. -/
theorem process_article_propagates_counterexample :
    processArticle simpleSentTokenize failChunker failTokenizeE
      identityLemmatize noStopWords govArticle = .error () := rfl

/-- C4 (amended): exceptions in the entity pass are contained —
process_article returns normally with the partially filled (possibly
empty) entity map whenever classification succeeds, for arbitrary
failing sentence splitters and chunkers — but an exception raised while
tokenizing inside classify_topic propagates to process_article's caller
unchanged. -/
theorem process_article_fault_containment
    (sentTokenize : String → Except Unit (List String))
    (chunker : String → Except Unit (List (String × String)))
    (tokenizeE : String → Except Unit (List String))
    (lemmatize : String → String) (stopWords : List String)
    (a : Article) :
    (∀ ts, classifyTopicE tokenizeE lemmatize stopWords a = .ok ts →
      processArticle sentTokenize chunker tokenizeE lemmatize stopWords a
        = .ok { a with
                topics := ts,
                entities :=
                  extractNamedEntities sentTokenize chunker a.content })
    ∧ (∀ e, classifyTopicE tokenizeE lemmatize stopWords a = .error e →
      processArticle sentTokenize chunker tokenizeE lemmatize stopWords a
        = .error e) := by
  unfold processArticle
  constructor
  · intro ts hc
    rw [hc]
    rfl
  · intro e hc
    rw [hc]
    rfl

/-- Witness for the amended C4: a chunker that raises on every sentence
still lets process_article return, with the empty category map collected
before the fault and the topics of a successful classification. -/
theorem process_article_fault_containment_witness :
    classifyTopicE simpleTokenizeE identityLemmatize noStopWords govArticle
      = .ok ["politics"]
    ∧ processArticle simpleSentTokenize failChunker simpleTokenizeE
        identityLemmatize noStopWords govArticle
      = .ok { govArticle with
              topics := ["politics"],
              entities :=
                extractNamedEntities simpleSentTokenize failChunker
                  govArticle.content } :=
  ⟨by rfl,
    (process_article_fault_containment simpleSentTokenize failChunker
      simpleTokenizeE identityLemmatize noStopWords govArticle).1
      ["politics"] (by rfl)⟩

/-! ### Claim C2: classifier scoring weights -/

theorem foldl_count_add (p : α → Bool) (w : Nat) (l : List α) (init : Nat) :
    l.foldl (fun s x => if p x then s + w else s) init
      = init + w * l.countP p := by
  induction l generalizing init with
  | nil => simp
  | cons x rest ih =>
    simp only [List.foldl_cons, List.countP_cons]
    by_cases hx : p x
    · rw [if_pos hx, ih]
      simp only [hx, if_true]
      ring
    · rw [if_neg hx, ih]
      simp [hx]

/-- C2 (amended): the per-topic score accumulated by classify_topic
decomposes into exact weighted occurrence counts — +3 per preprocessed
title-token occurrence in the topic's keyword list, +1 per occurrence in
the preprocessed combined title-and-body token list (so a title
occurrence contributes 3 + 1 = 4 in total, not 3), +2 per multi-word
keyword phrase found case-insensitively in the raw combined text, and +4
per entry of the article's keywords field that case-insensitively equals
one of the topic's keywords. -/
theorem classify_scoring_weights (tokenize : String → List String)
    (lemmatize : String → String) (stopWords : List String)
    (a : Article) (topic : String) :
    topicScoreOf
        (preprocessText tokenize lemmatize stopWords a.title)
        (preprocessText tokenize lemmatize stopWords
          (a.title ++ " " ++ fstrOpt a.content))
        (a.title ++ " " ++ fstrOpt a.content)
        a.keywords (keywordsFor topic)
      = 3 * (preprocessText tokenize lemmatize stopWords a.title).countP
            (fun t => (keywordsFor topic).contains t)
        + (preprocessText tokenize lemmatize stopWords
            (a.title ++ " " ++ fstrOpt a.content)).countP
            (fun t => (keywordsFor topic).contains t)
        + 2 * (keywordsFor topic).countP
            (fun kw => kw.data.contains ' '
              && hasSub (strToLower kw)
                   (strToLower (a.title ++ " " ++ fstrOpt a.content)))
        + 4 * a.keywords.countP
            (fun k => (keywordsFor topic).any
              (fun kw => strToLower kw == strToLower k)) := by
  unfold topicScoreOf
  rw [foldl_count_add, foldl_count_add, foldl_count_add, foldl_count_add]
  ring

/-- Counterexample to C2 as stated: an article whose title contains one
politics keyword and whose body contains none scores 4 for politics (the
title pass adds 3 and the combined-text pass adds 1 more), while the
claim's weights predict exactly 3. -/
theorem classify_scoring_weights_counterexample :
    topicScoreOf
        (preprocessText simpleTokenize identityLemmatize noStopWords
          govArticle.title)
        (preprocessText simpleTokenize identityLemmatize noStopWords
          (govArticle.title ++ " " ++ fstrOpt govArticle.content))
        (govArticle.title ++ " " ++ fstrOpt govArticle.content)
        govArticle.keywords (keywordsFor "politics") = 4
    ∧ claimTopicScore simpleTokenize identityLemmatize noStopWords
        govArticle (keywordsFor "politics") = 3 := by
  constructor <;> rfl

/-! ### Claim C3: classifier output selection -/

theorem insertDescBy_perm (key : α → Nat) (x : α) (l : List α) :
    List.Perm (insertDescBy key x l) (x :: l) := by
  induction l with
  | nil => exact List.Perm.refl _
  | cons y ys ih =>
    unfold insertDescBy
    by_cases hc : key y ≤ key x
    · rw [if_pos hc]
    · rw [if_neg hc]
      exact (ih.cons y).trans (List.Perm.swap x y ys)

theorem sortDescBy_perm (key : α → Nat) (l : List α) :
    List.Perm (sortDescBy key l) l := by
  induction l with
  | nil => exact List.Perm.refl _
  | cons x xs ih => exact (insertDescBy_perm key x _).trans (ih.cons x)

theorem insertDescBy_pairwise (key pos : α → Nat) (x : α) (l : List α)
    (hl : l.Pairwise (keyPosBeats key pos))
    (hx : ∀ y ∈ l, pos x < pos y) :
    (insertDescBy key x l).Pairwise (keyPosBeats key pos) := by
  induction l with
  | nil => simp [insertDescBy]
  | cons y ys ih =>
    rcases List.pairwise_cons.mp hl with ⟨hy, hys⟩
    unfold insertDescBy
    by_cases hc : key y ≤ key x
    · rw [if_pos hc]
      refine List.pairwise_cons.mpr ⟨?_, hl⟩
      intro z hz
      rcases List.mem_cons.mp hz with rfl | hz'
      · rcases Nat.lt_or_ge (key z) (key x) with h1 | h2
        · exact Or.inl h1
        · exact Or.inr ⟨Nat.le_antisymm h2 hc, hx z (List.mem_cons_self _ _)⟩
      · rcases hy z hz' with hlt | ⟨heq, hpos⟩
        · exact Or.inl (Nat.lt_of_lt_of_le hlt hc)
        · rcases Nat.lt_or_ge (key z) (key x) with h1 | h2
          · exact Or.inl h1
          · have hkeq : key x = key z := Nat.le_antisymm h2 (heq ▸ hc)
            exact Or.inr ⟨hkeq, hx z (List.mem_cons_of_mem _ hz')⟩
    · rw [if_neg hc]
      have hkx : key x < key y := Nat.not_le.mp hc
      refine List.pairwise_cons.mpr
        ⟨?_, ih hys (fun z hz => hx z (List.mem_cons_of_mem _ hz))⟩
      intro z hz
      have hz2 := (insertDescBy_perm key x ys).mem_iff.mp hz
      rcases List.mem_cons.mp hz2 with rfl | hz3
      · exact Or.inl hkx
      · exact hy z hz3

theorem sortDescBy_pairwise (key pos : α → Nat) (l : List α)
    (hl : l.Pairwise (fun a b => pos a < pos b)) :
    (sortDescBy key l).Pairwise (keyPosBeats key pos) := by
  induction l with
  | nil => simp [sortDescBy]
  | cons x xs ih =>
    rcases List.pairwise_cons.mp hl with ⟨hx, hxs⟩
    unfold sortDescBy
    refine insertDescBy_pairwise key pos x _ (ih hxs) ?_
    intro y hy
    exact hx y ((sortDescBy_perm key xs).mem_iff.mp hy)

theorem classifyTopic_eq (tokenize : String → List String)
    (lemmatize : String → String) (stopWords : List String) (a : Article)
    (h : (optStrFalsy a.content && a.title.isEmpty) = false) :
    classifyTopic tokenize lemmatize stopWords a
      = (if (((sortDescBy (fun p => p.2) (TOPICS.map (fun t =>
              (t, articleTopicScore tokenize lemmatize stopWords a t)))).filter
                (fun p => 1 < p.2)).map (fun p => p.1)).isEmpty
         then ["general"]
         else ((((sortDescBy (fun p => p.2) (TOPICS.map (fun t =>
              (t, articleTopicScore tokenize lemmatize stopWords a t)))).filter
                (fun p => 1 < p.2)).map (fun p => p.1)).take 2)) := by
  unfold classifyTopic
  simp only [h, Bool.false_eq_true, if_false]
  rfl

/-- C3 (amended): for every article that passes classify_topic's
non-empty guard, the returned list has at most 2 entries; when every
topic scores at most the threshold 1 the result is exactly the
one-element list [general]; when some topic exceeds the threshold every
returned entry is a configured topic scoring above 1; the output is
ordered by strictly decreasing priority (score descending, ties broken
by the fixed TOPICS order); and any above-threshold topic that is left
out is outranked by each of the 2 returned topics.  For an article
whose title and content are both falsy, the guard instead returns the
empty list (see the counterexample). -/
theorem classify_output_selection (tokenize : String → List String)
    (lemmatize : String → String) (stopWords : List String) (a : Article)
    (h : (optStrFalsy a.content && a.title.isEmpty) = false) :
    (classifyTopic tokenize lemmatize stopWords a).length ≤ 2
    ∧ ((∀ t ∈ TOPICS,
          articleTopicScore tokenize lemmatize stopWords a t ≤ 1) →
        classifyTopic tokenize lemmatize stopWords a = ["general"])
    ∧ ((∃ t ∈ TOPICS,
          1 < articleTopicScore tokenize lemmatize stopWords a t) →
        ∀ u ∈ classifyTopic tokenize lemmatize stopWords a,
          u ∈ TOPICS
          ∧ 1 < articleTopicScore tokenize lemmatize stopWords a u)
    ∧ (classifyTopic tokenize lemmatize stopWords a).Pairwise
        (topicOutranks (articleTopicScore tokenize lemmatize stopWords a))
    ∧ (∀ t ∈ TOPICS,
        1 < articleTopicScore tokenize lemmatize stopWords a t →
        t ∉ classifyTopic tokenize lemmatize stopWords a →
        (classifyTopic tokenize lemmatize stopWords a).length = 2
        ∧ ∀ u ∈ classifyTopic tokenize lemmatize stopWords a,
          topicOutranks (articleTopicScore tokenize lemmatize stopWords a)
            u t) := by
  set S := articleTopicScore tokenize lemmatize stopWords a with hS
  set scores := TOPICS.map (fun t => (t, S t)) with hscores
  set sorted := sortDescBy (fun p : String × Nat => p.2) scores with hsorted
  set filt := sorted.filter (fun p => 1 < p.2) with hfilt
  set relevant := filt.map (fun p => p.1) with hrelevant
  have hperm := sortDescBy_perm (fun p : String × Nat => p.2) scores
  have hmem : ∀ p ∈ scores, p.1 ∈ TOPICS ∧ p.2 = S p.1 := by
    intro p hp
    rcases List.mem_map.mp hp with ⟨t, ht, rfl⟩
    exact ⟨ht, rfl⟩
  have hsorted_mem : ∀ p ∈ sorted, p.1 ∈ TOPICS ∧ p.2 = S p.1 :=
    fun p hp => hmem p (hperm.subset hp)
  have hpos_pw : scores.Pairwise
      (fun p q : String × Nat => TOPICS.indexOf p.1 < TOPICS.indexOf q.1) := by
    rw [hscores, List.pairwise_map]
    exact (by decide :
      TOPICS.Pairwise (fun u v => TOPICS.indexOf u < TOPICS.indexOf v))
  have hsort_pw : sorted.Pairwise
      (keyPosBeats (fun p => p.2) (fun p => TOPICS.indexOf p.1)) :=
    sortDescBy_pairwise _ _ scores hpos_pw
  have hrel_pw : relevant.Pairwise (topicOutranks S) := by
    rw [hrelevant, List.pairwise_map]
    refine (hsort_pw.filter _).imp_of_mem ?_
    intro p q hp hq hbeats
    have hp2 := (hsorted_mem p (List.mem_of_mem_filter hp)).2
    have hq2 := (hsorted_mem q (List.mem_of_mem_filter hq)).2
    unfold keyPosBeats at hbeats
    unfold topicOutranks
    rw [← hp2, ← hq2]
    exact hbeats
  have hchain : ∀ t ∈ TOPICS, 1 < S t → t ∈ relevant := by
    intro t ht hst
    have h1 : (t, S t) ∈ scores := List.mem_map.mpr ⟨t, ht, rfl⟩
    have h2 : (t, S t) ∈ sorted := (hperm.symm.subset) h1
    have h3 : (t, S t) ∈ filt := by
      rw [hfilt]
      exact List.mem_filter.mpr ⟨h2, by simpa using hst⟩
    exact List.mem_map.mpr ⟨(t, S t), h3, rfl⟩
  have hrel_mem : ∀ u ∈ relevant, u ∈ TOPICS ∧ 1 < S u := by
    intro u hu
    rcases List.mem_map.mp hu with ⟨p, hp, rfl⟩
    have hps := hsorted_mem p (List.mem_of_mem_filter hp)
    have := List.mem_filter.mp hp
    refine ⟨hps.1, ?_⟩
    rw [← hps.2]
    simpa using this.2
  rw [classifyTopic_eq tokenize lemmatize stopWords a h]
  rw [← hS, ← hscores, ← hsorted, ← hfilt, ← hrelevant]
  by_cases hE : relevant.isEmpty = true
  · have hnil : relevant = [] := by
      rwa [List.isEmpty_iff] at hE
    rw [if_pos hE]
    refine ⟨by simp, fun _ => rfl, ?_, List.pairwise_singleton _ _, ?_⟩
    · rintro ⟨t, ht, hst⟩
      have := hchain t ht hst
      rw [hnil] at this
      cases this
    · intro t ht hst _
      have := hchain t ht hst
      rw [hnil] at this
      cases this
  · rw [if_neg hE]
    refine ⟨by rw [List.length_take]; omega, ?_, ?_, hrel_pw.take, ?_⟩
    · intro hall
      have hniltf : filt = [] := by
        rw [hfilt]
        refine List.filter_eq_nil_iff.mpr ?_
        intro p hp
        have hps := hsorted_mem p hp
        have h1 : S p.1 ≤ 1 := hall p.1 hps.1
        simp only [decide_eq_true_eq, hps.2]
        omega
      rw [hrelevant, hniltf] at hE
      simp at hE
    · intro _ u hu
      exact hrel_mem u (List.take_subset 2 relevant hu)
    · intro t ht hst htr
      have htrel := hchain t ht hst
      have htdrop : t ∈ relevant.drop 2 := by
        rcases List.mem_append.mp
          ((List.take_append_drop 2 relevant) ▸ htrel) with h1 | h2
        · exact absurd h1 htr
        · exact h2
      have hlen3 : 2 ≤ relevant.length := by
        have hne := List.ne_nil_of_mem htdrop
        have := List.length_pos.mpr hne
        rw [List.length_drop] at this
        omega
      constructor
      · rw [List.length_take]
        omega
      · intro u hu
        exact hrel_pw.rel_of_mem_take_of_mem_drop hu htdrop

/-- Counterexample to C3 as stated: an article whose title and content
are both falsy certainly has zero keyword matches, yet classify_topic's
early-return guard yields the empty list rather than [general]. -/
theorem classify_threshold_counterexample :
    classifyTopic simpleTokenize identityLemmatize noStopWords voidArticle
      = []
    ∧ ([] : List String) ≠ ["general"] :=
  ⟨rfl, by decide⟩

/-- Witness for the amended C3 at a concrete article passing the guard:
the fixture scores politics above threshold and is classified as
exactly that single topic. -/
theorem classify_output_selection_witness :
    ((optStrFalsy govArticle.content && govArticle.title.isEmpty) = false)
    ∧ (classifyTopic simpleTokenize identityLemmatize noStopWords
        govArticle).length ≤ 2
    ∧ classifyTopic simpleTokenize identityLemmatize noStopWords govArticle
        = ["politics"] :=
  ⟨rfl,
    (classify_output_selection simpleTokenize identityLemmatize noStopWords
      govArticle rfl).1,
    by rfl⟩

/-! ### Claim C7: pagination -/

theorem insertDescBy_sorted (key : α → Nat) (x : α) (l : List α)
    (hl : l.Pairwise (fun a b => key b ≤ key a)) :
    (insertDescBy key x l).Pairwise (fun a b => key b ≤ key a) := by
  induction l with
  | nil => simp [insertDescBy]
  | cons y ys ih =>
    rcases List.pairwise_cons.mp hl with ⟨hy, hys⟩
    unfold insertDescBy
    by_cases hc : key y ≤ key x
    · rw [if_pos hc]
      refine List.pairwise_cons.mpr ⟨?_, hl⟩
      intro z hz
      rcases List.mem_cons.mp hz with rfl | hz'
      · exact hc
      · exact Nat.le_trans (hy z hz') hc
    · rw [if_neg hc]
      have hxy : key x ≤ key y := Nat.le_of_lt (Nat.not_le.mp hc)
      refine List.pairwise_cons.mpr ⟨?_, ih hys⟩
      intro z hz
      rcases List.mem_cons.mp
        ((insertDescBy_perm key x ys).mem_iff.mp hz) with rfl | hz'
      · exact hxy
      · exact hy z hz'

theorem sortDescBy_sorted (key : α → Nat) (l : List α) :
    (sortDescBy key l).Pairwise (fun a b => key b ≤ key a) := by
  induction l with
  | nil => simp [sortDescBy]
  | cons x xs ih =>
    unfold sortDescBy
    exact insertDescBy_sorted key x _ ih

/-- C7 (amended): on both backends a query with limit L and skip S
returns exactly the elements at positions [S, S+L) of that backend's
full result sequence, and a skip beyond the end yields the empty list
rather than an error.  The document store's full sequence is its corpus
sorted descending by scraped_at; the file store's full sequence is its
corpus in descending file-modification-time order (the reverse of save
order), not a scraped_at sort (see the counterexample). -/
theorem pagination_spec (db fs : List Article) (L S : Nat) :
    ((sortDescBy scrapedKey db).Pairwise
        (fun x y => scrapedKey y ≤ scrapedKey x)
      ∧ List.Perm (sortDescBy scrapedKey db) db
      ∧ (dbGetRecentArticles L S db).length = min L (db.length - S)
      ∧ (∀ i, i < L →
          (dbGetRecentArticles L S db)[i]?
            = (sortDescBy scrapedKey db)[S + i]?)
      ∧ (db.length ≤ S → dbGetRecentArticles L S db = []))
    ∧ ((fileGetRecentArticles L S fs).length = min L (fs.length - S)
      ∧ (∀ i, i < L →
          (fileGetRecentArticles L S fs)[i]? = fs.reverse[S + i]?)
      ∧ (fs.length ≤ S → fileGetRecentArticles L S fs = [])) := by
  have hdb : dbGetRecentArticles L S db
      = ((sortDescBy scrapedKey db).drop S).take L := by
    unfold dbGetRecentArticles dbGetArticles
    rw [List.filter_true]
  have hlen : (sortDescBy scrapedKey db).length = db.length :=
    (sortDescBy_perm scrapedKey db).length_eq
  refine ⟨⟨sortDescBy_sorted scrapedKey db, sortDescBy_perm scrapedKey db,
      ?_, ?_, ?_⟩, ?_, ?_, ?_⟩
  · rw [hdb, List.length_take, List.length_drop, hlen]
  · intro i hi
    rw [hdb, List.getElem?_take, if_pos hi, List.getElem?_drop]
  · intro hle
    rw [hdb, List.drop_eq_nil_of_le (by rw [hlen]; exact hle), List.take_nil]
  · unfold fileGetRecentArticles
    rw [List.length_take, List.length_drop, List.length_reverse]
  · intro i hi
    unfold fileGetRecentArticles
    rw [List.getElem?_take, if_pos hi, List.getElem?_drop]
  · intro hle
    unfold fileGetRecentArticles
    rw [List.drop_eq_nil_of_le (by rw [List.length_reverse]; exact hle),
      List.take_nil]

/-- Counterexample to C7 as stated: after saving the fixture that was
scraped later first and the one scraped earlier second, position 0 of
the file store's query is the second article, while position 0 of the
descending-scraped_at order is the first; the two articles have distinct
scraped_at values, so this is not a tie reordering. -/
theorem pagination_counterexample :
    fileGetRecentArticles 1 0 (runFileSaves [artA, artB] []) = [artB]
    ∧ (sortDescBy scrapedKey (runFileSaves [artA, artB] [])).take 1 = [artA]
    ∧ artB ≠ artA
    ∧ artA.scraped_at ≠ artB.scraped_at := by
  refine ⟨by decide, by decide, by decide, by decide⟩

/-- Witness for the amended C7: the slice equations discharged at a
two-article corpus with concrete limit and skip. -/
theorem pagination_spec_witness :
    (0 : Nat) < 1
    ∧ (dbGetRecentArticles 1 1 (runDbSaves [artA, artB] []))[0]?
        = (sortDescBy scrapedKey (runDbSaves [artA, artB] []))[1 + 0]?
    ∧ (2 : Nat) ≤ 5
    ∧ fileGetRecentArticles 1 5 (runFileSaves [artA, artB] []) = [] :=
  ⟨by decide,
    (pagination_spec (runDbSaves [artA, artB] [])
      (runFileSaves [artA, artB] []) 1 1).1.2.2.2.1 0 (by decide),
    by decide,
    (pagination_spec (runDbSaves [artA, artB] [])
      (runFileSaves [artA, artB] []) 1 5).2.2.2
      (by decide)⟩

/-! ### Claim C6: backend interchangeability -/

theorem stampScraped_of_some (now : Nat) (a : Article)
    (h : a.scraped_at ≠ none) : stampScraped now a = a := by
  unfold stampScraped
  match hv : a.scraped_at with
  | none => exact absurd hv h
  | some t => rfl

theorem filter_not_of_countP_zero (p : α → Bool) (l : List α)
    (h : l.countP p = 0) : l.filter (fun b => !p b) = l := by
  induction l with
  | nil => rfl
  | cons x xs ih =>
    by_cases hx : p x = true
    · rw [List.countP_cons_of_pos _ _ hx] at h
      omega
    · rw [List.countP_cons_of_neg _ _ hx] at h
      rw [List.filter_cons]
      have hx' : (!p x) = true := by simp [hx]
      rw [if_pos hx', ih h]

theorem countWithId_cons (k : Option String) (b : Article)
    (l : List Article) :
    countWithId k (b :: l)
      = countWithId k l + (if (b.article_id == k) = true then 1 else 0) := by
  unfold countWithId
  rw [List.countP_cons]

theorem replace_perm_filter (a : Article) (db : List Article)
    (h1 : countWithId a.article_id db = 1) :
    List.Perm
      (db.map (fun b => if b.article_id == a.article_id then a else b))
      (db.filter (fun b => !(b.article_id == a.article_id)) ++ [a]) := by
  induction db with
  | nil => simp [countWithId] at h1
  | cons b rest ih =>
    by_cases hb : (b.article_id == a.article_id) = true
    · have hrest : countWithId a.article_id rest = 0 := by
        have h2 : countWithId a.article_id (b :: rest)
            = countWithId a.article_id rest + 1 := by
          rw [countWithId_cons, if_pos hb]
        rw [h2] at h1
        omega
      rw [List.map_cons, List.filter_cons]
      simp only [hb, if_pos, Bool.not_true, Bool.false_eq_true, if_false]
      rw [replace_of_absent a rest hrest,
        filter_not_of_countP_zero _ rest hrest]
      exact (List.perm_append_singleton a rest).symm
    · have h1' : countWithId a.article_id rest = 1 := by
        have h2 : countWithId a.article_id (b :: rest)
            = countWithId a.article_id rest + 0 := by
          rw [countWithId_cons, if_neg hb]
        rw [h2] at h1
        omega
      rw [List.map_cons, List.filter_cons]
      simp only [hb, if_neg, Bool.not_false, if_true, Bool.false_eq_true]
      exact (ih h1').cons b

theorem backend_step (a : Article) (ha : hasArticleId a = true)
    (hs : a.scraped_at ≠ none) (db fs : List Article)
    (hwf : ∀ k, countWithId k db ≤ 1) (hp : List.Perm fs db) :
    (∀ k, countWithId k (dbSaveArticle a db).2.2 ≤ 1)
    ∧ List.Perm (fileSaveArticle 0 a fs).2.2 (dbSaveArticle a db).2.2 := by
  have hfs : (fileSaveArticle 0 a fs).2.2
      = fs.filter (fun b => !(b.article_id == a.article_id)) ++ [a] := by
    rw [fileSave_ok a ha 0 fs, stampScraped_of_some 0 a hs]
  cases hany : db.any (fun b => b.article_id == a.article_id) with
  | false =>
    have hzero : countWithId a.article_id db = 0 := by
      unfold countWithId
      rw [List.countP_eq_zero]
      intro b hb hpb
      have hx : db.any (fun b => b.article_id == a.article_id) = true :=
        List.any_eq_true.mpr ⟨b, hb, hpb⟩
      rw [hany] at hx
      cases hx
    rw [dbSave_state_absent a ha db hany]
    constructor
    · intro k
      unfold countWithId at hzero ⊢
      rw [List.countP_append]
      by_cases hk : (a.article_id == k) = true
      · have hak : a.article_id = k := by simpa using hk
        subst hak
        rw [hzero]
        simp [List.countP_cons]
      · have hw := hwf k
        unfold countWithId at hw
        have hca : List.countP (fun b => b.article_id == k) [a] = 0 := by
          simp [List.countP_cons, hk]
        omega
    · rw [hfs]
      have hfz : fs.countP (fun b => b.article_id == a.article_id) = 0 := by
        rw [hp.countP_eq]
        exact hzero
      rw [filter_not_of_countP_zero _ fs hfz]
      exact hp.append_right [a]
  | true =>
    have hone : countWithId a.article_id db = 1 := by
      rcases List.any_eq_true.mp hany with ⟨b, hb, hpb⟩
      have hpos : 0 < countWithId a.article_id db := by
        unfold countWithId
        exact List.countP_pos_iff.mpr ⟨b, hb, hpb⟩
      have := hwf a.article_id
      omega
    rw [dbSave_state_present a ha db hany]
    constructor
    · intro k
      rw [countWithId_map_replace]
      exact hwf k
    · rw [hfs]
      refine List.Perm.trans ?_ (replace_perm_filter a db hone).symm
      exact (hp.filter _).append_right [a]

theorem backend_run (saves : List Article)
    (h : ∀ a ∈ saves, hasArticleId a = true ∧ a.scraped_at ≠ none) :
    ∀ db fs : List Article, (∀ k, countWithId k db ≤ 1) →
    List.Perm fs db →
    (∀ k, countWithId k (runDbSaves saves db) ≤ 1)
    ∧ List.Perm (runFileSaves saves fs) (runDbSaves saves db) := by
  induction saves with
  | nil => exact fun db fs hwf hp => ⟨hwf, hp⟩
  | cons a rest ih =>
    intro db fs hwf hp
    have ha := h a (List.mem_cons_self a rest)
    have hstep := backend_step a ha.1 ha.2 db fs hwf hp
    exact ih (fun b hb => h b (List.mem_cons_of_mem a hb)) _ _
      hstep.1 hstep.2

theorem find?_eq_head_filter (p : α → Bool) (l : List α) :
    l.find? p = (l.filter p).head? := by
  induction l with
  | nil => rfl
  | cons x xs ih =>
    by_cases hx : p x = true
    · rw [List.find?_cons_of_pos _ hx, List.filter_cons, if_pos hx]
      rfl
    · rw [List.find?_cons_of_neg _ hx, List.filter_cons, if_neg hx]
      exact ih

theorem perm_eq_of_length_le_one {l₁ l₂ : List α} (h : List.Perm l₁ l₂)
    (hl : l₂.length ≤ 1) : l₁ = l₂ := by
  match l₂, hl with
  | [], _ => exact h.eq_nil
  | [x], _ => exact List.perm_singleton.mp h
  | x :: y :: ys, hl => simp at hl

/-- C6 (amended): after any common sequence of saves of well-formed
articles (article_id present, scraped_at present) starting from empty
stores, the two backends hold permutations of the same records and agree
on get_article_by_id and on the total article count; but their query
orderings are not interchangeable — the file store orders recency by
file modification time (save order) and reads filtered queries in
directory order with different default limits, while the document store
orders by the scraped_at field (see the counterexample). -/
theorem backend_agreement (saves : List Article)
    (h : ∀ a ∈ saves, hasArticleId a = true ∧ a.scraped_at ≠ none) :
    List.Perm (runFileSaves saves []) (runDbSaves saves [])
    ∧ fileCountArticles (runFileSaves saves [])
        = dbGetArticleCount (runDbSaves saves [])
    ∧ ∀ id, fileGetArticleById id (runFileSaves saves [])
        = dbGetArticleById id (runDbSaves saves []) := by
  have hrun := backend_run saves h [] []
    (fun k => by simp [countWithId]) (List.Perm.refl [])
  refine ⟨hrun.2, hrun.2.length_eq, ?_⟩
  intro id
  unfold fileGetArticleById dbGetArticleById
  rw [find?_eq_head_filter, find?_eq_head_filter]
  have hperm := hrun.2.filter (fun b => b.article_id == some id)
  have hcount := hrun.1 (some id)
  unfold countWithId at hcount
  rw [List.countP_eq_length_filter] at hcount
  rw [perm_eq_of_length_le_one hperm hcount]

/-- Counterexample to C6 as stated: saving the later-scraped fixture
first and the earlier-scraped one second, the recency query returns the
two articles in opposite orders on the two backends (document store by
scraped_at, file store by modification time), with distinct scraped_at
sort keys, so the difference is not a tie reordering. -/
theorem backend_equivalence_counterexample :
    (dbGetRecentArticles 50 0 (runDbSaves [artA, artB] [])).map
        (fun b => b.article_id) = [some "a", some "b"]
    ∧ (fileGetRecentArticles 20 0 (runFileSaves [artA, artB] [])).map
        (fun b => b.article_id) = [some "b", some "a"]
    ∧ artA.scraped_at ≠ artB.scraped_at := by
  refine ⟨by decide, by decide, by decide⟩

/-- Witness for the amended C6 at a concrete two-article save sequence. -/
theorem backend_agreement_witness :
    (∀ a ∈ [artA, artB], hasArticleId a = true ∧ a.scraped_at ≠ none)
    ∧ fileCountArticles (runFileSaves [artA, artB] [])
        = dbGetArticleCount (runDbSaves [artA, artB] [])
    ∧ fileGetArticleById "a" (runFileSaves [artA, artB] [])
        = dbGetArticleById "a" (runDbSaves [artA, artB] []) :=
  ⟨by decide,
    (backend_agreement [artA, artB] (by decide)).2.1,
    (backend_agreement [artA, artB] (by decide)).2.2 "a"⟩
